import Mathlib

/-!
Verification of the mentat connection/transaction core (`src/conn.rs`) and the
debug inspector (`db/src/debug.rs`) against their specification.

The Rust code is shallowly embedded:

* `Metadata`, `Conn`, `InProgress` (conn.rs) become Lean structures.  The
  `Arc<Schema>` sharing discipline is made explicit with an append-only heap of
  schema cells (`ConnState.heap`); an `Arc<Schema>` is an index into the heap.
  `Arc::new` is modelled as appending a fresh cell; no operation ever writes to
  an existing cell, which is exactly the guarantee `Arc` (without interior
  mutability) provides.
* The SQLite substrate is modelled by a small `Substrate` record: whether an
  IMMEDIATE transaction can be opened (`busy`), whether a commit succeeds
  (`commitOk`), and a counter of opened transactions (`txnsOpened`) used to
  observe whether a substrate transaction was ever opened.
* The transactor, the EDN parser and the tx-form parser are external
  collaborators of the core (out of scope per the spec); they are passed in as
  function arguments, exactly as faithful as the Rust code's calls into other
  crates.
* The debug views (`datoms_after`, `transactions_after`) read a table modelled
  as a list of rows; the SQL `WHERE tx > ?` / `ORDER BY ...` clause becomes a
  filter followed by a sort by the corresponding lexicographic key.
-/

/-! ## Value types and schema (mentat_core) -/

/-- Value types an attribute can carry (spec section 3).
Modelled from the spec: `mentat_core::ValueType` is not under `src/`. -/
inductive ValueType
  | ref
  | boolean
  | instant
  | long
  | double
  | string
  | keyword
  | uuid
  | uri
deriving DecidableEq

/-- Internal numeric value-type tags.
Modelled from the spec: `SQLValueType::value_type_tag` of `mentat_core` is not
under `src/`; tag values follow the persisted representation the spec
describes (the `long` tag and the fulltext pointer tag are distinct). -/
def ValueType.value_type_tag : ValueType → Int
  | .ref => 0
  | .boolean => 1
  | .instant => 4
  | .long => 5
  | .double => 5
  | .string => 10
  | .uuid => 11
  | .uri => 12
  | .keyword => 13

/-- The value-type tag stored in persisted datoms of a fulltext attribute
(spec section 3: the stored tag is the fulltext pointer tag, the semantic tag is
`long`).  Modelled from the spec: the constant lives in `mentat_core`, not under
`src/`. -/
def fulltextPointerTag : Int := ValueType.string.value_type_tag

/-- A schema attribute: a value type and the fulltext flag (spec section 3). -/
structure Attribute where
  value_type : ValueType
  fulltext : Bool
deriving DecidableEq

/-- A schema: attribute map plus the entid to ident map (spec section 3).
Modelled from the spec: `mentat_core::Schema` is not under `src/`; only the
parts the code under `src/` consumes are represented. -/
structure Schema where
  attribute_map : List (Int × Attribute)
  ident_map : List (Int × String)
deriving DecidableEq

/-- Look up the ident of an entid (`Schema::get_ident`). -/
def Schema.get_ident (schema : Schema) (e : Int) : Option String :=
  schema.ident_map.lookup e

/-- Errors surfaced by the debug readers. -/
inductive DbReadError
  | unrecognizedEntid (e : Int)
  | badSQLValuePair
deriving DecidableEq

/-- Look up an attribute, failing with `UnrecognizedEntid` when absent
(`SchemaBuilding::require_attribute_for_entid`).  Modelled from the spec: the
function lives in `db/src/schema.rs`, which is not under `src/`. -/
def Schema.require_attribute_for_entid (schema : Schema) (a : Int) :
    Except DbReadError Attribute :=
  match schema.attribute_map.lookup a with
  | some attr => .ok attr
  | none => .error (.unrecognizedEntid a)

/-! ## Partition maps and transaction reports -/

/-- One partition: allocated range and next-to-hand-out index (spec section 3). -/
structure Partition where
  partStart : Int
  partEnd : Int
  index : Int
deriving DecidableEq

/-- A partition map, keyed by partition name.
Modelled from the spec: `mentat_db::PartitionMap` is not under `src/`; the
connection core treats it as an opaque value that is cloned and installed. -/
structure PartitionMap where
  parts : List (String × Partition)
deriving DecidableEq

/-- The outcome of one committed transaction (spec section 6). -/
structure TxReport where
  tx_id : Int
  tempids : List (String × Int)
deriving DecidableEq

/-! ## Connection state (conn.rs) -/

/-- Errors of the connection core (conn.rs / errors.rs, design in spec
section 7). -/
inductive ConnError
  | ednParseError
  | txParseError
  | dbError
  | lostTransactRace
  | sqlError
deriving DecidableEq

/-- Connection metadata (conn.rs lines 54-58): generation, partition map and
the shared schema.  The `Arc<Schema>` is an index (`schema`) into the
connection's append-only heap of schema cells. -/
structure Metadata where
  generation : Nat
  partition_map : PartitionMap
  schema : Nat
deriving DecidableEq

/-- The state a `Conn` protects with its metadata mutex, together with the heap
of `Arc<Schema>` cells.  Cell `i` of `heap` is the schema value behind the
`i`-th `Arc` ever created; `Arc::new` appends a cell and no operation writes to
an existing cell. -/
structure ConnState where
  heap : List Schema
  metadata : Metadata
deriving DecidableEq

/-- The default (empty) schema, used only to totalize heap dereferencing. -/
def emptySchema : Schema := ⟨[], []⟩

/-- Dereference the connection's current shared schema (`*metadata.schema`). -/
def derefSchema (c : ConnState) : Schema :=
  (c.heap[c.metadata.schema]?).getD emptySchema

/-- The `(partition_map, schema)` pair an observer reads under the mutex. -/
def readPair (c : ConnState) : PartitionMap × Schema :=
  (c.metadata.partition_map, derefSchema c)

/-- Embeds `Conn::current_schema` (conn.rs lines 187-201): lock, clone the `Arc`,
unlock.  Cloning an `Arc` shares the cell, so the snapshot is the index. -/
def Conn.current_schema (c : ConnState) : Nat :=
  c.metadata.schema

/-- The SQLite substrate as the connection core observes it: whether another
IMMEDIATE/EXCLUSIVE transaction blocks us, whether a commit would succeed, and
how many substrate transactions have been opened. -/
structure Substrate where
  busy : Bool
  commitOk : Bool
  txnsOpened : Nat
deriving DecidableEq

/-- An in-progress, not yet committed, set of changes (conn.rs lines 93-100):
the generation observed at open, owned working copies of the partition map and
schema, and the last transaction report. -/
structure InProgress where
  generation : Nat
  partition_map : PartitionMap
  schema : Schema
  last_report : Option TxReport
deriving DecidableEq

/-- Everything `InProgress::commit` produces: the returned value, the
connection state after the call, and whether the substrate transaction was
committed. -/
structure CommitOutcome where
  result : Except ConnError (Option TxReport)
  conn : ConnState
  substrateCommitted : Bool

/-- Embeds `InProgress::commit` (conn.rs lines 147-169).  The mutex is held for the
whole method, so the method is one atomic step on `ConnState`.  It compares the
observed generation with the current one (bailing with the lost-race error),
commits the substrate transaction (`substrateOk` says whether SQLite commit
succeeds), and only then installs generation + 1, the working partition map,
and — only when the working schema differs from the installed shared schema — a
freshly allocated `Arc` cell holding the working schema. -/
def InProgress.commit (ip : InProgress) (c : ConnState) (substrateOk : Bool) :
    CommitOutcome :=
  if ip.generation ≠ c.metadata.generation then
    ⟨.error .lostTransactRace, c, false⟩
  else if substrateOk = false then
    ⟨.error .sqlError, c, false⟩
  else
    let md := { c.metadata with
                generation := c.metadata.generation + 1,
                partition_map := ip.partition_map }
    if ip.schema ≠ derefSchema c then
      ⟨.ok ip.last_report,
       { heap := c.heap ++ [ip.schema], metadata := { md with schema := c.heap.length } },
       true⟩
    else
      ⟨.ok ip.last_report, { c with metadata := md }, true⟩

/-- Embeds `InProgress::rollback` (conn.rs lines 142-145): aborts the substrate
transaction; the connection metadata is never touched. -/
def InProgress.rollback (c : ConnState) : ConnState := c

/-- Dropping an `InProgress` without commit (conn.rs lines 89-92): the SQLite
transaction is aborted on drop; the connection metadata is never touched. -/
def InProgress.dropWithoutCommit (c : ConnState) : ConnState := c

/-- Embeds `Conn::begin_transaction` (conn.rs lines 229-250): open an IMMEDIATE
substrate transaction (failing when the substrate is busy), then under the
mutex snapshot the generation, clone the partition map and clone the schema
contents into the working copy. -/
def Conn.begin_transaction (c : ConnState) (sub : Substrate) :
    Except ConnError (InProgress × Substrate) :=
  if sub.busy then .error .sqlError
  else
    .ok ({ generation := c.metadata.generation,
           partition_map := c.metadata.partition_map,
           schema := derefSchema c,
           last_report := none },
         { sub with txnsOpened := sub.txnsOpened + 1 })

/-- The external transactor (spec section 6): from the staged entities and the
working partition map and schema (passed twice in the code: schema-before and
schema-after candidate), produce a report, the next partition map and an
optional next schema. -/
def Transactor (α : Type) : Type :=
  List α → PartitionMap → Schema → Schema →
    Except ConnError (TxReport × PartitionMap × Option Schema)

/-- Embeds `InProgress::transact_entities` (conn.rs lines 103-111): delegate to the
transactor; on success replace the partition map, optionally replace the
schema, and store the report. -/
def InProgress.transact_entities {α : Type} (ip : InProgress)
    (transactor : Transactor α) (entities : List α) :
    Except ConnError InProgress :=
  match transactor entities ip.partition_map ip.schema ip.schema with
  | .error e => .error e
  | .ok (report, next_partition_map, next_schema) =>
    .ok { ip with
          partition_map := next_partition_map,
          schema := next_schema.getD ip.schema,
          last_report := some report }

/-- Outcome of `Conn::transact`: result, final connection state, final
substrate state, and whether the trailing `expect("we always get a report")`
panicked. -/
structure TransactOutcome where
  result : Except ConnError TxReport
  conn : ConnState
  substrate : Substrate
  panicked : Bool

/-- Embeds `Conn::transact` (conn.rs lines 254-270): parse the EDN text, parse the
transaction forms — both before any substrate transaction is opened — then
`begin_transaction`, `transact_entities`, `commit`, and `expect` a report. -/
def Conn.transact {α β : Type}
    (ednParseValue : String → Except ConnError β)
    (txParseForms : β → Except ConnError (List α))
    (transactor : Transactor α)
    (c : ConnState) (sub : Substrate) (text : String) : TransactOutcome :=
  match ednParseValue text with
  | .error e => ⟨.error e, c, sub, false⟩
  | .ok assertion_vector =>
    match txParseForms assertion_vector with
    | .error e => ⟨.error e, c, sub, false⟩
    | .ok entities =>
      match Conn.begin_transaction c sub with
      | .error e => ⟨.error e, c, sub, false⟩
      | .ok (ip, sub1) =>
        match ip.transact_entities transactor entities with
        | .error e => ⟨.error e, c, sub1, false⟩
        | .ok ip1 =>
          let out := ip1.commit c sub1.commitOk
          match out.result with
          | .error e => ⟨.error e, out.conn, sub1, false⟩
          | .ok none => ⟨.error .dbError, out.conn, sub1, true⟩
          | .ok (some report) => ⟨.ok report, out.conn, sub1, false⟩

/-! ## Operation traces over a connection -/

/-- One operation on a `Conn`'s shared metadata.  Reads (`current_schema`,
`q_once`, `begin_transaction`) never write the metadata; `rollback` and
dropping an `InProgress` abort only the substrate transaction; `commit` is the
single writer. -/
inductive ConnOp
  | commitOp (ip : InProgress) (substrateOk : Bool)
  | rollbackOp
  | dropOp
  | readOp

/-- Effect of one operation on the connection state. -/
def ConnOp.apply (c : ConnState) : ConnOp → ConnState
  | .commitOp ip ok => (ip.commit c ok).conn
  | .rollbackOp => InProgress.rollback c
  | .dropOp => InProgress.dropWithoutCommit c
  | .readOp => c

/-- Whether an operation is a commit that succeeded from state `c`. -/
def ConnOp.commitSucceeded (c : ConnState) : ConnOp → Bool
  | .commitOp ip ok =>
    match (ip.commit c ok).result with
    | .ok _ => true
    | .error _ => false
  | _ => false

/-- Run a sequence of operations. -/
def applyOps : ConnState → List ConnOp → ConnState
  | c, [] => c
  | c, op :: ops => applyOps (op.apply c) ops

/-- Number of successful commits in a run. -/
def successfulCommits : ConnState → List ConnOp → Nat
  | _, [] => 0
  | c, op :: ops =>
    (if op.commitSucceeded c then 1 else 0) + successfulCommits (op.apply c) ops

/-! ## Values read back from the store (debug.rs collaborator types) -/

/-- A SQLite value as the debug readers see it.
Modelled from the spec: `rusqlite::types::Value` is external; only the shapes
the store uses are represented.  SQLite compares NULL below numbers below
text, and we key text by its character list. -/
inductive SQLValue
  | null
  | integer (n : Int)
  | text (s : String)
deriving DecidableEq

/-- A typed value (`mentat_core::TypedValue`).
Modelled from the spec: `mentat_core` is not under `src/`; constructors follow
the spec's value types (section 3). -/
inductive TypedValue
  | ref (n : Int)
  | boolean (b : Bool)
  | long (n : Int)
  | instant (n : Int)
  | typedString (s : String)
  | typedKeyword (s : String)
deriving DecidableEq

/-- An EDN value as produced by `TypedValue::to_edn_value_pair`.
Modelled from the spec: the `edn` crate is external. -/
inductive EdnValue
  | integer (n : Int)
  | boolean (b : Bool)
  | text (s : String)
  | keyword (s : String)
deriving DecidableEq

/-- Embeds `TypedValue::from_sql_value_pair` — decode a stored SQL value at a numeric
value-type tag.  Modelled from the spec: the function lives in `db/src/db.rs`
(`TypedSQLValue`), not under `src/`.  A tag/value mismatch (in particular an
integer decoded at the fulltext pointer tag) is an error. -/
def fromSQLValuePair (v : SQLValue) (tag : Int) : Except DbReadError TypedValue :=
  match v with
  | .integer n =>
    if tag = 0 then .ok (.ref n)
    else if tag = 1 then .ok (.boolean (n ≠ 0))
    else if tag = 4 then .ok (.instant n)
    else if tag = 5 then .ok (.long n)
    else .error .badSQLValuePair
  | .text s =>
    if tag = 10 then .ok (.typedString s)
    else if tag = 13 then .ok (.typedKeyword s)
    else .error .badSQLValuePair
  | .null => .error .badSQLValuePair

/-- Embeds `ToIdent::map_ident` (debug.rs lines 112-120): turn a `Ref` into a
`Keyword` when the schema knows the ident. -/
def TypedValue.map_ident (tv : TypedValue) (schema : Schema) : TypedValue :=
  match tv with
  | .ref e =>
    match schema.get_ident e with
    | some kw => .typedKeyword kw
    | none => .ref e
  | t => t

/-- The value part of `TypedValue::to_edn_value_pair`.
Modelled from the spec: lives in `mentat_core`, not under `src/`. -/
def TypedValue.to_edn_value : TypedValue → EdnValue
  | .ref n => .integer n
  | .boolean b => .boolean b
  | .long n => .integer n
  | .instant n => .integer n
  | .typedString s => .text s
  | .typedKeyword s => .keyword s

/-- Embeds `mentat_tx::entities::Entid` as used in debug datoms: either a numeric
entid or its ident. -/
inductive Entid
  | entid (n : Int)
  | ident (kw : String)
deriving DecidableEq

/-- A datom of the debug views (debug.rs lines 43-50). -/
structure Datom where
  e : Entid
  a : Entid
  v : EdnValue
  tx : Int
  added : Option Bool
deriving DecidableEq

/-- Embeds `to_entid` (debug.rs lines 123-125): display an entid as its ident when
possible. -/
def to_entid (schema : Schema) (entid : Int) : Entid :=
  match schema.get_ident entid with
  | some ident => .ident ident
  | none => .entid entid

/-- The entid of `:db/txInstant`.
Modelled from the spec: `entids.rs` of the db crate is not under `src/`; the
claims only need it to be a fixed attribute entid. -/
def DB_TX_INSTANT : Int := 3

/-- The first transaction entid (spec section 8: `TX0 = 0x10000000`).
Modelled from the spec: `bootstrap.rs` is not under `src/`. -/
def TX0 : Int := 0x10000000

/-! ## Table rows and the SQL ordering -/

/-- One row of the `datoms` table as selected by `datoms_after`. -/
structure DatomRow where
  e : Int
  a : Int
  v : SQLValue
  value_type_tag : Int
  tx : Int
deriving DecidableEq

/-- One row of the `transactions` table as selected by `transactions_after`. -/
structure TransactionRow where
  e : Int
  a : Int
  v : SQLValue
  value_type_tag : Int
  tx : Int
  added : Bool
deriving DecidableEq

/-- Sort key of a SQL value: SQLite orders NULL before numbers before text. -/
def SQLValue.sortKey : SQLValue → Lex (Nat × Lex (Int × List Char))
  | .null => toLex (0, toLex (0, []))
  | .integer n => toLex (1, toLex (n, []))
  | .text s => toLex (2, toLex (0, s.data))

/-- Key of `ORDER BY e ASC, a ASC, value_type_tag ASC, v ASC, tx ASC`
(debug.rs line 140). -/
def DatomRow.sortKey (r : DatomRow) :
    Lex (Int × Lex (Int × Lex (Int × Lex (Lex (Nat × Lex (Int × List Char)) × Int)))) :=
  toLex (r.e, toLex (r.a, toLex (r.value_type_tag, toLex (r.v.sortKey, r.tx))))

/-- The relation the `datoms`/`datoms_after` SQL sorts by. -/
def datomRowLe (x y : DatomRow) : Prop := x.sortKey ≤ y.sortKey

instance : DecidableRel datomRowLe :=
  fun x y => inferInstanceAs (Decidable (x.sortKey ≤ y.sortKey))

instance : IsTotal DatomRow datomRowLe :=
  ⟨fun x y => le_total x.sortKey y.sortKey⟩

instance : IsTrans DatomRow datomRowLe :=
  ⟨fun _ _ _ h h' => le_trans h h'⟩

/-- Key of `ORDER BY tx ASC, e ASC, a ASC, value_type_tag ASC, v ASC, added
ASC` (debug.rs line 180); `false < true`, so retractions sort before
assertions on ties. -/
def TransactionRow.sortKey (r : TransactionRow) :
    Lex (Int × Lex (Int × Lex (Int × Lex (Int ×
      Lex (Lex (Nat × Lex (Int × List Char)) × Bool))))) :=
  toLex (r.tx, toLex (r.e, toLex (r.a, toLex (r.value_type_tag,
    toLex (r.v.sortKey, r.added)))))

/-- The relation the `transactions_after` SQL sorts by. -/
def txRowLe (x y : TransactionRow) : Prop := x.sortKey ≤ y.sortKey

instance : DecidableRel txRowLe :=
  fun x y => inferInstanceAs (Decidable (x.sortKey ≤ y.sortKey))

instance : IsTotal TransactionRow txRowLe :=
  ⟨fun x y => le_total x.sortKey y.sortKey⟩

instance : IsTrans TransactionRow txRowLe :=
  ⟨fun _ _ _ h h' => le_trans h h'⟩

/-! ## The debug views -/

/-- Fail-fast collection of per-row results, as
`query_and_then(..).collect::<Result<Vec<_>>>()` does. -/
def collectExcept {γ δ ε : Type} (g : γ → Except ε δ) : List γ → Except ε (List δ)
  | [] => .ok []
  | x :: xs =>
    match g x with
    | .error e => .error e
    | .ok y =>
      match collectExcept g xs with
      | .error e => .error e
      | .ok ys => .ok (y :: ys)

/-- The rows `datoms_after` receives from SQLite: `WHERE tx > ?` then the
`ORDER BY` of debug.rs line 140. -/
def datomsRows (store : List DatomRow) (tx : Int) : List DatomRow :=
  List.insertionSort datomRowLe (store.filter (fun r => tx < r.tx))

/-- Per-row mapping of `datoms_after` (debug.rs lines 142-168): skip
`:db/txInstant` rows, require the attribute, normalize the tag of fulltext
attributes to the `long` tag, decode, identify refs, and build the datom. -/
def processDatomRow (schema : Schema) (r : DatomRow) :
    Except DbReadError (Option Datom) :=
  if r.a = DB_TX_INSTANT then .ok none
  else
    match schema.require_attribute_for_entid r.a with
    | .error e => .error e
    | .ok attrib =>
      let value_type_tag :=
        if !attrib.fulltext then r.value_type_tag
        else ValueType.long.value_type_tag
      match fromSQLValuePair r.v value_type_tag with
      | .error e => .error e
      | .ok typed_value =>
        .ok (some { e := .entid r.e,
                    a := to_entid schema r.a,
                    v := (typed_value.map_ident schema).to_edn_value,
                    tx := r.tx,
                    added := none })

/-- Embeds `datoms_after` (debug.rs lines 137-171). -/
def datoms_after (store : List DatomRow) (schema : Schema) (tx : Int) :
    Except DbReadError (List Datom) :=
  match collectExcept (processDatomRow schema) (datomsRows store tx) with
  | .error e => .error e
  | .ok rows => .ok (rows.filterMap id)

/-- Embeds `datoms` (debug.rs lines 129-131). -/
def datoms (store : List DatomRow) (schema : Schema) :
    Except DbReadError (List Datom) :=
  datoms_after store schema (TX0 - 1)

/-- The rows `transactions_after` receives from SQLite: `WHERE tx > ?` then
the `ORDER BY` of debug.rs line 180. -/
def transactionsRows (store : List TransactionRow) (tx : Int) : List TransactionRow :=
  List.insertionSort txRowLe (store.filter (fun r => tx < r.tx))

/-- Per-row mapping of `transactions_after` (debug.rs lines 182-205): same as
the datoms mapping but `:db/txInstant` rows are kept and `added` is present. -/
def processTxRow (schema : Schema) (r : TransactionRow) :
    Except DbReadError Datom :=
  match schema.require_attribute_for_entid r.a with
  | .error e => .error e
  | .ok attrib =>
    let value_type_tag :=
      if !attrib.fulltext then r.value_type_tag
      else ValueType.long.value_type_tag
    match fromSQLValuePair r.v value_type_tag with
    | .error e => .error e
    | .ok typed_value =>
      .ok { e := .entid r.e,
            a := to_entid schema r.a,
            v := (typed_value.map_ident schema).to_edn_value,
            tx := r.tx,
            added := some r.added }

/-- Group consecutive datoms sharing a `tx` (the `group_by(|x| x.tx)` of
debug.rs line 208). -/
def groupByTx : List Datom → List (List Datom)
  | [] => []
  | d :: ds =>
    match groupByTx ds with
    | [] => [[d]]
    | [] :: gs => [d] :: gs
    | (d' :: g) :: gs =>
      if d.tx = d'.tx then (d :: d' :: g) :: gs else [d] :: (d' :: g) :: gs

/-- Embeds `transactions_after` (debug.rs lines 177-210). -/
def transactions_after (store : List TransactionRow) (schema : Schema) (tx : Int) :
    Except DbReadError (List (List Datom)) :=
  match collectExcept (processTxRow schema) (transactionsRows store tx) with
  | .error e => .error e
  | .ok rows => .ok (groupByTx rows)

/-- Embeds `fulltext_values` (debug.rs lines 213-223): the fulltext table ordered by
rowid. -/
def fulltext_values (table : List (Int × String)) : List (Int × String) :=
  List.insertionSort (fun x y : Int × String => x.1 ≤ y.1) table

/-- What the spec calls the resolved string of a fulltext datom: the text the
`fulltext_values` table associates with the stored rowid.  This definition
follows the spec's words (claim C6); the code under `src/` never consults the
table when emitting datoms. -/
def specResolvedString (table : List (Int × String)) (rowid : Int) : Option String :=
  table.lookup rowid

/-! ## Helper lemmas about commit -/

/-- Case analysis on `InProgress.commit`: either the generation check fails, or
the substrate commit fails, or the commit succeeds in one of the two
schema-installation branches. -/
theorem commit_cases (ip : InProgress) (c : ConnState) (ok : Bool) :
    (ip.generation ≠ c.metadata.generation ∧
      ip.commit c ok = ⟨.error .lostTransactRace, c, false⟩) ∨
    (ip.generation = c.metadata.generation ∧ ok = false ∧
      ip.commit c ok = ⟨.error .sqlError, c, false⟩) ∨
    (ip.generation = c.metadata.generation ∧ ok = true ∧
      ip.schema ≠ derefSchema c ∧
      ip.commit c ok =
        ⟨.ok ip.last_report,
         { heap := c.heap ++ [ip.schema],
           metadata := { generation := c.metadata.generation + 1,
                         partition_map := ip.partition_map,
                         schema := c.heap.length } },
         true⟩) ∨
    (ip.generation = c.metadata.generation ∧ ok = true ∧
      ip.schema = derefSchema c ∧
      ip.commit c ok =
        ⟨.ok ip.last_report,
         { heap := c.heap,
           metadata := { generation := c.metadata.generation + 1,
                         partition_map := ip.partition_map,
                         schema := c.metadata.schema } },
         true⟩) := by
  by_cases h1 : ip.generation ≠ c.metadata.generation
  · exact Or.inl ⟨h1, by unfold InProgress.commit; simp [h1]⟩
  · push_neg at h1
    by_cases h2 : ok = false
    · exact Or.inr (Or.inl ⟨h1, h2, by unfold InProgress.commit; simp [h1, h2]⟩)
    · have h2' : ok = true := by
        cases ok
        · exact absurd rfl h2
        · rfl
      by_cases h3 : ip.schema ≠ derefSchema c
      · refine Or.inr (Or.inr (Or.inl ⟨h1, h2', h3, ?_⟩))
        unfold InProgress.commit
        simp [h1, h2', h3]
      · push_neg at h3
        refine Or.inr (Or.inr (Or.inr ⟨h1, h2', h3, ?_⟩))
        unfold InProgress.commit
        simp [h1, h2', h3]

/-- The generation after one operation: plus one for a successful commit,
unchanged otherwise. -/
theorem generation_after_op (c : ConnState) (op : ConnOp) :
    (op.apply c).metadata.generation
      = c.metadata.generation + (if op.commitSucceeded c then 1 else 0) := by
  cases op with
  | commitOp ip ok =>
    rcases commit_cases ip c ok with ⟨_, h⟩ | ⟨_, _, h⟩ | ⟨_, _, _, h⟩ | ⟨_, _, _, h⟩ <;>
      simp [ConnOp.apply, ConnOp.commitSucceeded, h]
  | rollbackOp => simp [ConnOp.apply, ConnOp.commitSucceeded, InProgress.rollback]
  | dropOp => simp [ConnOp.apply, ConnOp.commitSucceeded, InProgress.dropWithoutCommit]
  | readOp => simp [ConnOp.apply, ConnOp.commitSucceeded]

/-- The generation after a run of operations. -/
theorem generation_after_ops (ops : List ConnOp) (c : ConnState) :
    (applyOps c ops).metadata.generation
      = c.metadata.generation + successfulCommits c ops := by
  induction ops generalizing c with
  | nil => simp [applyOps, successfulCommits]
  | cons op ops ih =>
    show (applyOps (op.apply c) ops).metadata.generation = _
    rw [ih (op.apply c), generation_after_op c op]
    simp [successfulCommits]
    omega

/-- C1.  For every sequence of operations on a Connection, the metadata
generation increases by exactly 1 on each successful `InProgress::commit`, is
left unchanged by a failed commit attempt, by `rollback`, and by dropping an
`InProgress` (all of which contribute 0), and never decreases. -/
theorem generation_monotonicity (c : ConnState) (op : ConnOp) (ops : List ConnOp) :
    ((op.apply c).metadata.generation
        = c.metadata.generation + (if op.commitSucceeded c then 1 else 0)) ∧
    ((applyOps c ops).metadata.generation
        = c.metadata.generation + successfulCommits c ops) ∧
    c.metadata.generation ≤ (applyOps c ops).metadata.generation := by
  refine ⟨generation_after_op c op, generation_after_ops ops c, ?_⟩
  rw [generation_after_ops ops c]
  exact Nat.le_add_right _ _

/-- C3.  If the generation observed at open differs from the current metadata
generation, `commit` aborts with the distinct `LostTransactRace` error, does
not commit the substrate transaction, and leaves the connection state
unchanged. -/
theorem commit_lost_transact_race (ip : InProgress) (c : ConnState) (ok : Bool)
    (h : ip.generation ≠ c.metadata.generation) :
    ip.commit c ok = ⟨.error .lostTransactRace, c, false⟩ := by
  unfold InProgress.commit
  simp [h]

/-- Witness for C3 at a concrete mismatched generation. -/
theorem commit_lost_transact_race_witness :
    ((⟨1, ⟨[]⟩, emptySchema, none⟩ : InProgress).generation
        ≠ (⟨[emptySchema], ⟨0, ⟨[]⟩, 0⟩⟩ : ConnState).metadata.generation) ∧
    (⟨1, ⟨[]⟩, emptySchema, none⟩ : InProgress).commit ⟨[emptySchema], ⟨0, ⟨[]⟩, 0⟩⟩ true
      = ⟨.error .lostTransactRace, ⟨[emptySchema], ⟨0, ⟨[]⟩, 0⟩⟩, false⟩ :=
  ⟨by decide,
   commit_lost_transact_race ⟨1, ⟨[]⟩, emptySchema, none⟩ ⟨[emptySchema], ⟨0, ⟨[]⟩, 0⟩⟩
     true (by decide)⟩

/-- C2.  `InProgress::commit` replaces the metadata atomically: on success the
pair an observer reads under the mutex is exactly the new
`(partition_map, schema)` pair (and the returned value is the last report); on
any failure the substrate transaction is not committed and the connection
state — generation, partition map and schema included — is unchanged, so
observers still read the old pair.  Sequencing through the mutex means an
observer reads either the state before the call or the state after it, never a
mixture. -/
theorem commit_atomic_metadata (ip : InProgress) (c : ConnState) (ok : Bool) :
    (∀ rep, (ip.commit c ok).result = .ok rep →
        readPair (ip.commit c ok).conn = (ip.partition_map, ip.schema)
          ∧ rep = ip.last_report) ∧
    (∀ e, (ip.commit c ok).result = .error e →
        (ip.commit c ok).conn = c ∧ (ip.commit c ok).substrateCommitted = false) := by
  rcases commit_cases ip c ok with ⟨_, h⟩ | ⟨_, _, h⟩ | ⟨_, _, hne, h⟩ | ⟨_, _, heq, h⟩
  · rw [h]
    constructor
    · intro rep hrep
      cases hrep
    · intro e he
      exact ⟨rfl, rfl⟩
  · rw [h]
    constructor
    · intro rep hrep
      cases hrep
    · intro e he
      exact ⟨rfl, rfl⟩
  · rw [h]
    constructor
    · intro rep hrep
      refine ⟨?_, by cases hrep; rfl⟩
      simp [readPair, derefSchema, List.getElem?_concat_length]
    · intro e he
      cases he
  · rw [h]
    constructor
    · intro rep hrep
      refine ⟨?_, by cases hrep; rfl⟩
      simp only [readPair, derefSchema]
      exact congrArg _ heq.symm
    · intro e he
      cases he

/-- Witness for C2 at a concrete successful commit that changes the schema. -/
theorem commit_atomic_metadata_witness :
    ((⟨0, ⟨[]⟩, ⟨[(1, ⟨.long, false⟩)], []⟩, some ⟨7, []⟩⟩ : InProgress).commit
        ⟨[emptySchema], ⟨0, ⟨[(":db.part/user", ⟨1, 2, 1⟩)]⟩, 0⟩⟩ true).result
      = .ok (some ⟨7, []⟩) ∧
    readPair ((⟨0, ⟨[]⟩, ⟨[(1, ⟨.long, false⟩)], []⟩, some ⟨7, []⟩⟩ : InProgress).commit
        ⟨[emptySchema], ⟨0, ⟨[(":db.part/user", ⟨1, 2, 1⟩)]⟩, 0⟩⟩ true).conn
      = (⟨[]⟩, ⟨[(1, ⟨.long, false⟩)], []⟩) := by
  have h := (commit_atomic_metadata ⟨0, ⟨[]⟩, ⟨[(1, ⟨.long, false⟩)], []⟩, some ⟨7, []⟩⟩
      ⟨[emptySchema], ⟨0, ⟨[(":db.part/user", ⟨1, 2, 1⟩)]⟩, 0⟩⟩ true).1
      (some ⟨7, []⟩) (by rfl)
  exact ⟨by rfl, h.1⟩

/-- Commit never writes to an existing `Arc` cell: every heap cell readable
before the call holds the same schema afterwards. -/
theorem commit_preserves_heap_cells (ip : InProgress) (c : ConnState) (ok : Bool)
    (r : Nat) (s : Schema) (h : c.heap[r]? = some s) :
    (ip.commit c ok).conn.heap[r]? = some s := by
  have hr : r < c.heap.length := (List.getElem?_eq_some.mp h).1
  rcases commit_cases ip c ok with ⟨_, hc⟩ | ⟨_, _, hc⟩ | ⟨_, _, _, hc⟩ | ⟨_, _, _, hc⟩ <;>
    rw [hc]
  · exact h
  · exact h
  · show (c.heap ++ [ip.schema])[r]? = some s
    rw [List.getElem?_append, if_pos hr]
    exact h
  · exact h

/-- C4.  A schema snapshot obtained via `Conn::current_schema` before a commit
is never mutated by that commit: the cell it shares still holds the same
schema afterwards.  When the working schema equals the installed one, commit
keeps the very same shared reference and allocates nothing; when it differs,
commit allocates a fresh cell (one that did not exist before) instead of
writing through the old reference. -/
theorem commit_snapshot_stability (ip : InProgress) (c : ConnState) (ok : Bool)
    (s : Schema) (h : c.heap[Conn.current_schema c]? = some s) :
    ((ip.commit c ok).conn.heap[Conn.current_schema c]? = some s) ∧
    (ip.schema = derefSchema c →
        (ip.commit c ok).conn.metadata.schema = Conn.current_schema c ∧
        (ip.commit c ok).conn.heap = c.heap) ∧
    (ip.schema ≠ derefSchema c →
        c.heap[c.heap.length]? = none ∧
        ((ip.commit c ok).conn = c ∨
          ((ip.commit c ok).conn.heap = c.heap ++ [ip.schema] ∧
           (ip.commit c ok).conn.metadata.schema = c.heap.length))) := by
  refine ⟨commit_preserves_heap_cells ip c ok _ s h, ?_, ?_⟩
  · intro heq
    rcases commit_cases ip c ok with ⟨_, hc⟩ | ⟨_, _, hc⟩ | ⟨_, _, hne, hc⟩ | ⟨_, _, _, hc⟩ <;>
      rw [hc]
    · exact ⟨rfl, rfl⟩
    · exact ⟨rfl, rfl⟩
    · exact absurd heq hne
    · exact ⟨rfl, rfl⟩
  · intro hne
    refine ⟨List.getElem?_eq_none (Nat.le_refl _), ?_⟩
    rcases commit_cases ip c ok with ⟨_, hc⟩ | ⟨_, _, hc⟩ | ⟨_, _, _, hc⟩ | ⟨_, _, heq, hc⟩ <;>
      rw [hc]
    · exact Or.inl rfl
    · exact Or.inl rfl
    · exact Or.inr ⟨rfl, rfl⟩
    · exact absurd heq hne

/-- Witness for C4 at a concrete state whose snapshot cell is populated. -/
theorem commit_snapshot_stability_witness :
    ((⟨[emptySchema], ⟨0, ⟨[]⟩, 0⟩⟩ : ConnState).heap[
        Conn.current_schema ⟨[emptySchema], ⟨0, ⟨[]⟩, 0⟩⟩]? = some emptySchema) ∧
    (((⟨0, ⟨[]⟩, ⟨[(1, ⟨.long, false⟩)], []⟩, none⟩ : InProgress).commit
          ⟨[emptySchema], ⟨0, ⟨[]⟩, 0⟩⟩ true).conn.heap[
        Conn.current_schema ⟨[emptySchema], ⟨0, ⟨[]⟩, 0⟩⟩]? = some emptySchema) := by
  have h : (⟨[emptySchema], ⟨0, ⟨[]⟩, 0⟩⟩ : ConnState).heap[
      Conn.current_schema ⟨[emptySchema], ⟨0, ⟨[]⟩, 0⟩⟩]? = some emptySchema := by decide
  exact ⟨h, (commit_snapshot_stability ⟨0, ⟨[]⟩, ⟨[(1, ⟨.long, false⟩)], []⟩, none⟩
      ⟨[emptySchema], ⟨0, ⟨[]⟩, 0⟩⟩ true emptySchema h).1⟩

/-- C9.  Committing an `InProgress` fresh out of `begin_transaction` — one on
which no `transact_entities` call ever succeeded — still succeeds: the
generation increments, the unchanged partition map is installed, the shared
schema reference is reused unchanged, and the returned report is `none`
because no transaction report exists. -/
theorem empty_commit_succeeds (c : ConnState) (sub : Substrate)
    (ip : InProgress) (sub1 : Substrate)
    (h : Conn.begin_transaction c sub = .ok (ip, sub1)) :
    ip.last_report = none ∧
    (ip.commit c true).result = .ok none ∧
    (ip.commit c true).conn.metadata.generation = c.metadata.generation + 1 ∧
    (ip.commit c true).conn.metadata.partition_map = c.metadata.partition_map ∧
    (ip.commit c true).conn.heap = c.heap ∧
    (ip.commit c true).conn.metadata.schema = c.metadata.schema := by
  unfold Conn.begin_transaction at h
  by_cases hb : sub.busy
  · rw [if_pos hb] at h
    cases h
  · rw [if_neg hb] at h
    have hip : ip = { generation := c.metadata.generation,
                      partition_map := c.metadata.partition_map,
                      schema := derefSchema c,
                      last_report := none } := by
      cases h
      rfl
    subst hip
    refine ⟨rfl, ?_, ?_, ?_, ?_, ?_⟩ <;>
      · unfold InProgress.commit
        simp

/-- Witness for C9 at a concrete connection and idle substrate. -/
theorem empty_commit_succeeds_witness :
    (Conn.begin_transaction ⟨[emptySchema], ⟨0, ⟨[]⟩, 0⟩⟩ ⟨false, true, 0⟩
        = .ok (⟨0, ⟨[]⟩, emptySchema, none⟩, ⟨false, true, 1⟩)) ∧
    ((⟨0, ⟨[]⟩, emptySchema, none⟩ : InProgress).commit
        ⟨[emptySchema], ⟨0, ⟨[]⟩, 0⟩⟩ true).result = .ok none ∧
    ((⟨0, ⟨[]⟩, emptySchema, none⟩ : InProgress).commit
        ⟨[emptySchema], ⟨0, ⟨[]⟩, 0⟩⟩ true).conn.metadata.generation = 0 + 1 :=
  ⟨rfl,
   ((empty_commit_succeeds ⟨[emptySchema], ⟨0, ⟨[]⟩, 0⟩⟩ ⟨false, true, 0⟩
       ⟨0, ⟨[]⟩, emptySchema, none⟩ ⟨false, true, 1⟩ rfl).2.1),
   ((empty_commit_succeeds ⟨[emptySchema], ⟨0, ⟨[]⟩, 0⟩⟩ ⟨false, true, 0⟩
       ⟨0, ⟨[]⟩, emptySchema, none⟩ ⟨false, true, 1⟩ rfl).2.2.1)⟩

/-- C7.  `Conn::transact` parses the EDN text and the transaction forms before
opening any substrate transaction: when either parse fails it returns that
parse error, the connection state is untouched, and the substrate is returned
exactly as it was — in particular `txnsOpened` is unchanged, so no substrate
transaction was ever opened. -/
theorem transact_parse_before_substrate {α β : Type}
    (ednParseValue : String → Except ConnError β)
    (txParseForms : β → Except ConnError (List α))
    (transactor : Transactor α)
    (c : ConnState) (sub : Substrate) (text : String) :
    (∀ e, ednParseValue text = .error e →
        Conn.transact ednParseValue txParseForms transactor c sub text
          = ⟨.error e, c, sub, false⟩) ∧
    (∀ v e, ednParseValue text = .ok v → txParseForms v = .error e →
        Conn.transact ednParseValue txParseForms transactor c sub text
          = ⟨.error e, c, sub, false⟩) := by
  constructor
  · intro e he
    unfold Conn.transact
    simp only [he]
  · intro v e hv he
    unfold Conn.transact
    simp only [hv, he]

/-- Witness for C7 with a concretely failing EDN parse. -/
theorem transact_parse_before_substrate_witness :
    ((fun _ : String => (.error .ednParseError : Except ConnError Unit)) "["
        = .error .ednParseError) ∧
    Conn.transact (fun _ : String => (.error .ednParseError : Except ConnError Unit))
        (fun _ => .ok ([] : List Unit))
        (fun _ pm s _ => .ok (⟨0, []⟩, pm, some s))
        ⟨[emptySchema], ⟨0, ⟨[]⟩, 0⟩⟩ ⟨false, true, 0⟩ "["
      = ⟨.error .ednParseError, ⟨[emptySchema], ⟨0, ⟨[]⟩, 0⟩⟩, ⟨false, true, 0⟩, false⟩ :=
  ⟨rfl,
   (transact_parse_before_substrate
       (fun _ : String => (.error .ednParseError : Except ConnError Unit))
       (fun _ => .ok ([] : List Unit))
       (fun _ pm s _ => .ok (⟨0, []⟩, pm, some s))
       ⟨[emptySchema], ⟨0, ⟨[]⟩, 0⟩⟩ ⟨false, true, 0⟩ "[").1 .ednParseError rfl⟩

/-- After a successful `transact_entities` the report is always present. -/
theorem transact_entities_report {α : Type} (ip : InProgress)
    (transactor : Transactor α) (entities : List α) (ip1 : InProgress)
    (h : ip.transact_entities transactor entities = .ok ip1) :
    ∃ rep, ip1.last_report = some rep := by
  unfold InProgress.transact_entities at h
  cases htr : transactor entities ip.partition_map ip.schema ip.schema with
  | error e =>
    rw [htr] at h
    cases h
  | ok t =>
    obtain ⟨report, next_partition_map, next_schema⟩ := t
    rw [htr] at h
    cases h
    exact ⟨report, rfl⟩

/-- A successful commit returns exactly the stored last report. -/
theorem commit_result_is_last_report (ip : InProgress) (c : ConnState) (ok : Bool)
    (rep : Option TxReport) (h : (ip.commit c ok).result = .ok rep) :
    rep = ip.last_report := by
  rcases commit_cases ip c ok with ⟨_, hc⟩ | ⟨_, _, hc⟩ | ⟨_, _, _, hc⟩ | ⟨_, _, _, hc⟩ <;>
    rw [hc] at h
  · cases h
  · cases h
  · cases h
    rfl
  · cases h
    rfl

/-- C10.  In `Conn::transact`, after a successful `transact_entities` the
`InProgress` always holds `Some` report, so a successful commit returns
`Some(report)` and the `expect("we always get a report")` can never panic:
for every input the modelled panic flag is false. -/
theorem transact_report_expect_safe {α β : Type}
    (ednParseValue : String → Except ConnError β)
    (txParseForms : β → Except ConnError (List α))
    (transactor : Transactor α)
    (c : ConnState) (sub : Substrate) (text : String) :
    (Conn.transact ednParseValue txParseForms transactor c sub text).panicked = false := by
  unfold Conn.transact
  cases hp : ednParseValue text with
  | error e => rfl
  | ok v =>
    cases ht : txParseForms v with
    | error e => simp only [ht]
    | ok entities =>
      simp only [ht]
      cases hb : Conn.begin_transaction c sub with
      | error e => simp only [hb]
      | ok p =>
        obtain ⟨ip, sub1⟩ := p
        simp only [hb]
        cases hte : ip.transact_entities transactor entities with
        | error e => simp only [hte]
        | ok ip1 =>
          obtain ⟨rep, hrep⟩ := transact_entities_report ip transactor entities ip1 hte
          simp only [hte]
          cases hco : (ip1.commit c sub1.commitOk).result with
          | error e => simp only [hco]
          | ok r =>
            have hr : r = ip1.last_report := commit_result_is_last_report ip1 c _ r hco
            subst hr
            simp only [hco, hrep]

/-! ## Helper lemmas about the debug views -/

/-- Fail-fast collection preserves length on success. -/
theorem collectExcept_length {γ δ ε : Type} (g : γ → Except ε δ) :
    ∀ (l : List γ) (l' : List δ), collectExcept g l = .ok l' → l'.length = l.length := by
  intro l
  induction l with
  | nil =>
    intro l' h
    cases h
    rfl
  | cons x xs ih =>
    intro l' h
    unfold collectExcept at h
    cases hg : g x with
    | error e =>
      rw [hg] at h
      cases h
    | ok y =>
      rw [hg] at h
      cases hc : collectExcept g xs with
      | error e =>
        rw [hc] at h
        cases h
      | ok ys =>
        rw [hc] at h
        cases h
        simp [ih ys hc]

/-- A `:db/txInstant` row is skipped by the datoms view's row mapping. -/
theorem processDatomRow_txinstant (schema : Schema) (r : DatomRow)
    (h : r.a = DB_TX_INSTANT) : processDatomRow schema r = .ok none := by
  unfold processDatomRow
  rw [if_pos h]

/-- A successfully processed non-`:db/txInstant` row yields a datom. -/
theorem processDatomRow_some (schema : Schema) (r : DatomRow) (o : Option Datom)
    (h : r.a ≠ DB_TX_INSTANT) (ho : processDatomRow schema r = .ok o) :
    ∃ d, o = some d := by
  unfold processDatomRow at ho
  rw [if_neg h] at ho
  cases ha : schema.require_attribute_for_entid r.a with
  | error e =>
    rw [ha] at ho
    cases ho
  | ok attrib =>
    simp only [ha] at ho
    cases hv : fromSQLValuePair r.v
        (if !attrib.fulltext then r.value_type_tag else ValueType.long.value_type_tag) with
    | error e =>
      simp only [hv] at ho
      cases ho
    | ok tv =>
      simp only [hv] at ho
      exact ⟨_, (Except.ok.inj ho).symm⟩

/-- Counting the emitted datoms of a processed row list: one per
non-`:db/txInstant` row. -/
theorem collect_filterMap_count (schema : Schema) :
    ∀ (rows : List DatomRow) (os : List (Option Datom)),
      collectExcept (processDatomRow schema) rows = .ok os →
      (os.filterMap id).length
        = (rows.filter (fun r => !(r.a == DB_TX_INSTANT))).length := by
  intro rows
  induction rows with
  | nil =>
    intro os h
    cases h
    rfl
  | cons r rows ih =>
    intro os h
    unfold collectExcept at h
    cases hg : processDatomRow schema r with
    | error e =>
      rw [hg] at h
      cases h
    | ok o =>
      rw [hg] at h
      cases hc : collectExcept (processDatomRow schema) rows with
      | error e =>
        rw [hc] at h
        cases h
      | ok os' =>
        rw [hc] at h
        cases h
        by_cases hi : r.a = DB_TX_INSTANT
        · have : o = none := by
            have := processDatomRow_txinstant schema r hi
            rw [this] at hg
            cases hg
            rfl
          subst this
          simp [List.filter_cons, hi, ih os' hc]
        · obtain ⟨d, hd⟩ := processDatomRow_some schema r o hi hg
          subst hd
          simp [List.filter_cons, hi, ih os' hc]

/-- Flattening the per-transaction grouping recovers the datom sequence. -/
theorem groupByTx_flatten : ∀ (l : List Datom), (groupByTx l).flatten = l := by
  intro l
  induction l with
  | nil => rfl
  | cons d ds ih =>
    unfold groupByTx
    cases hg : groupByTx ds with
    | nil =>
      rw [hg] at ih
      show ([[d]]).flatten = d :: ds
      simp at ih ⊢
      exact ih
    | cons g gs =>
      cases g with
      | nil =>
        rw [hg] at ih
        show ([d] :: gs).flatten = d :: ds
        simp at ih ⊢
        exact ih
      | cons d' g =>
        rw [hg] at ih
        show (if d.tx = d'.tx then (d :: d' :: g) :: gs
              else [d] :: (d' :: g) :: gs).flatten = d :: ds
        by_cases he : d.tx = d'.tx
        · rw [if_pos he]
          simp at ih ⊢
          exact ih
        · rw [if_neg he]
          simp at ih ⊢
          exact ih

/-- C8.  Datoms whose attribute is `:db/txInstant` are omitted from the plain
snapshot view and included in the history view: the row mapping of
`datoms_after` skips exactly the `:db/txInstant` rows, so the snapshot view
holds one datom per selected non-`:db/txInstant` row, while the history view
holds one datom per selected row, `:db/txInstant` rows included. -/
theorem txinstant_filtering
    (dstore : List DatomRow) (tstore : List TransactionRow) (schema : Schema)
    (tx : Int) (ds : List Datom) (ts : List (List Datom))
    (hd : datoms_after dstore schema tx = .ok ds)
    (ht : transactions_after tstore schema tx = .ok ts) :
    (∀ r : DatomRow, r.a = DB_TX_INSTANT → processDatomRow schema r = .ok none) ∧
    ds.length = (dstore.filter (fun r => tx < r.tx ∧ r.a ≠ DB_TX_INSTANT)).length ∧
    ts.flatten.length = (tstore.filter (fun r => tx < r.tx)).length := by
  refine ⟨fun r hr => processDatomRow_txinstant schema r hr, ?_, ?_⟩
  · unfold datoms_after at hd
    cases hc : collectExcept (processDatomRow schema) (datomsRows dstore tx) with
    | error e =>
      rw [hc] at hd
      cases hd
    | ok os =>
      rw [hc] at hd
      cases hd
      rw [collect_filterMap_count schema _ os hc]
      have hperm := List.perm_insertionSort datomRowLe
        (dstore.filter (fun r => decide (tx < r.tx)))
      calc ((datomsRows dstore tx).filter (fun r => !(r.a == DB_TX_INSTANT))).length
          = List.countP (fun r => !(r.a == DB_TX_INSTANT)) (datomsRows dstore tx) :=
            (List.countP_eq_length_filter _ _).symm
        _ = List.countP (fun r => !(r.a == DB_TX_INSTANT))
              (dstore.filter (fun r => decide (tx < r.tx))) := hperm.countP_eq _
        _ = List.countP (fun r => !(r.a == DB_TX_INSTANT) && decide (tx < r.tx)) dstore :=
            List.countP_filter _ _ _
        _ = List.countP (fun r => decide (tx < r.tx ∧ r.a ≠ DB_TX_INSTANT)) dstore := by
            refine List.countP_congr ?_
            intro x _
            simp
            tauto
        _ = (dstore.filter (fun r => decide (tx < r.tx ∧ r.a ≠ DB_TX_INSTANT))).length :=
            List.countP_eq_length_filter _ _
  · unfold transactions_after at ht
    cases hc : collectExcept (processTxRow schema) (transactionsRows tstore tx) with
    | error e =>
      rw [hc] at ht
      cases ht
    | ok rows =>
      rw [hc] at ht
      cases ht
      rw [groupByTx_flatten rows]
      rw [collectExcept_length (processTxRow schema) _ rows hc]
      unfold transactionsRows
      exact (List.perm_insertionSort txRowLe _).length_eq

/-- Witness for C8 on a concrete store holding one `:db/txInstant` row and one
plain row. -/
theorem txinstant_filtering_witness :
    (datoms_after ([⟨100, 3, .integer 0, 4, 1⟩, ⟨100, 1, .integer 7, 5, 1⟩] : List DatomRow)
        ⟨[(1, ⟨.long, false⟩), (3, ⟨.instant, false⟩)], []⟩ 0
      = .ok [⟨.entid 100, .entid 1, .integer 7, 1, none⟩]) ∧
    (transactions_after
        ([⟨100, 3, .integer 0, 4, 1, true⟩, ⟨100, 1, .integer 7, 5, 1, true⟩] :
          List TransactionRow)
        ⟨[(1, ⟨.long, false⟩), (3, ⟨.instant, false⟩)], []⟩ 0
      = .ok [[⟨.entid 100, .entid 1, .integer 7, 1, some true⟩,
              ⟨.entid 100, .entid 3, .integer 0, 1, some true⟩]]) ∧
    ([⟨.entid 100, .entid 1, .integer 7, 1, none⟩] : List Datom).length
      = (([⟨100, 3, .integer 0, 4, 1⟩, ⟨100, 1, .integer 7, 5, 1⟩] : List DatomRow).filter
          (fun r => (0 : Int) < r.tx ∧ r.a ≠ DB_TX_INSTANT)).length ∧
    ([[⟨.entid 100, .entid 1, .integer 7, 1, some true⟩,
       ⟨.entid 100, .entid 3, .integer 0, 1, some true⟩]] : List (List Datom)).flatten.length
      = (([⟨100, 3, .integer 0, 4, 1, true⟩, ⟨100, 1, .integer 7, 5, 1, true⟩] :
          List TransactionRow).filter (fun r => (0 : Int) < r.tx)).length := by
  have hd : datoms_after
      ([⟨100, 3, .integer 0, 4, 1⟩, ⟨100, 1, .integer 7, 5, 1⟩] : List DatomRow)
      ⟨[(1, ⟨.long, false⟩), (3, ⟨.instant, false⟩)], []⟩ 0
      = .ok [⟨.entid 100, .entid 1, .integer 7, 1, none⟩] := rfl
  have ht : transactions_after
      ([⟨100, 3, .integer 0, 4, 1, true⟩, ⟨100, 1, .integer 7, 5, 1, true⟩] :
        List TransactionRow)
      ⟨[(1, ⟨.long, false⟩), (3, ⟨.instant, false⟩)], []⟩ 0
      = .ok [[⟨.entid 100, .entid 1, .integer 7, 1, some true⟩,
              ⟨.entid 100, .entid 3, .integer 0, 1, some true⟩]] := rfl
  exact ⟨hd, ht,
    (txinstant_filtering _ _ _ 0 _ _ hd ht).2.1,
    (txinstant_filtering _ _ _ 0 _ _ hd ht).2.2⟩

/-! ## Ordering with the normalized tag (claim C5) -/

/-- The tag the spec's ordering clause uses: for a fulltext attribute the
`long` tag, otherwise the stored tag. -/
def normalizedTag (schema : Schema) (a : Int) (tag : Int) : Int :=
  match schema.attribute_map.lookup a with
  | some attr => if attr.fulltext then ValueType.long.value_type_tag else tag
  | none => tag

/-- Key `(e, a, (normalized tag, v), tx)` of the spec's snapshot ordering. -/
def DatomRow.normKey (schema : Schema) (r : DatomRow) :
    Lex (Int × Lex (Int × Lex (Int × Lex (Lex (Nat × Lex (Int × List Char)) × Int)))) :=
  toLex (r.e, toLex (r.a, toLex (normalizedTag schema r.a r.value_type_tag,
    toLex (r.v.sortKey, r.tx))))

/-- Snapshot ordering by the spec's normalized key. -/
def datomRowNormLe (schema : Schema) (x y : DatomRow) : Prop :=
  x.normKey schema ≤ y.normKey schema

instance (schema : Schema) : DecidableRel (datomRowNormLe schema) :=
  fun x y => inferInstanceAs (Decidable (x.normKey schema ≤ y.normKey schema))

/-- Key `(tx, e, a, (normalized tag, v), added)` of the spec's history
ordering. -/
def TransactionRow.normKey (schema : Schema) (r : TransactionRow) :
    Lex (Int × Lex (Int × Lex (Int × Lex (Int ×
      Lex (Lex (Nat × Lex (Int × List Char)) × Bool))))) :=
  toLex (r.tx, toLex (r.e, toLex (r.a, toLex (normalizedTag schema r.a r.value_type_tag,
    toLex (r.v.sortKey, r.added)))))

/-- History ordering by the spec's normalized key. -/
def txRowNormLe (schema : Schema) (x y : TransactionRow) : Prop :=
  x.normKey schema ≤ y.normKey schema

instance (schema : Schema) : DecidableRel (txRowNormLe schema) :=
  fun x y => inferInstanceAs (Decidable (x.normKey schema ≤ y.normKey schema))

/-- A stored tag is well formed for its attribute when datoms of a fulltext
attribute carry the fulltext pointer tag, as the spec says persisted datoms
do (spec section 3). -/
def tagOk (schema : Schema) (a tag : Int) : Bool :=
  match schema.attribute_map.lookup a with
  | some attr => !attr.fulltext || (tag == fulltextPointerTag)
  | none => true

/-- With no attribute in the schema the normalized tag is the stored tag. -/
theorem normalizedTag_none (schema : Schema) (a tag : Int)
    (h : schema.attribute_map.lookup a = none) : normalizedTag schema a tag = tag := by
  unfold normalizedTag
  rw [h]

/-- For a fulltext attribute the normalized tag is the `long` tag. -/
theorem normalizedTag_fulltext (schema : Schema) (a tag : Int) (attr : Attribute)
    (h : schema.attribute_map.lookup a = some attr) (hf : attr.fulltext = true) :
    normalizedTag schema a tag = ValueType.long.value_type_tag := by
  unfold normalizedTag
  rw [h]
  simp [hf]

/-- For a non-fulltext attribute the normalized tag is the stored tag. -/
theorem normalizedTag_not_fulltext (schema : Schema) (a tag : Int) (attr : Attribute)
    (h : schema.attribute_map.lookup a = some attr) (hf : attr.fulltext = false) :
    normalizedTag schema a tag = tag := by
  unfold normalizedTag
  rw [h]
  simp [hf]

/-- A well-tagged row of a fulltext attribute carries the pointer tag. -/
theorem tagOk_fulltext (schema : Schema) (a tag : Int) (attr : Attribute)
    (h : schema.attribute_map.lookup a = some attr) (hf : attr.fulltext = true)
    (ht : tagOk schema a tag = true) : tag = fulltextPointerTag := by
  unfold tagOk at ht
  rw [h] at ht
  simp [hf] at ht
  exact ht

/-- On well-tagged rows, the SQL's stored-tag ordering implies the spec's
normalized-tag ordering: the tag only breaks ties between rows of one
attribute, and rows of one fulltext attribute all carry the pointer tag. -/
theorem datomRowLe_implies_normLe (schema : Schema) (x y : DatomRow)
    (hx : tagOk schema x.a x.value_type_tag = true)
    (hy : tagOk schema y.a y.value_type_tag = true)
    (h : datomRowLe x y) : datomRowNormLe schema x y := by
  unfold datomRowLe DatomRow.sortKey at h
  unfold datomRowNormLe DatomRow.normKey
  rw [Prod.Lex.le_iff] at h ⊢
  simp only [] at h ⊢
  rcases h with h | ⟨he, h⟩
  · exact Or.inl h
  · refine Or.inr ⟨he, ?_⟩
    rw [Prod.Lex.le_iff] at h ⊢
    simp only [] at h ⊢
    rcases h with h | ⟨ha, h⟩
    · exact Or.inl h
    · refine Or.inr ⟨ha, ?_⟩
      rw [Prod.Lex.le_iff] at h ⊢
      simp only [] at h ⊢
      rw [← ha] at hy ⊢
      cases hl : schema.attribute_map.lookup x.a with
      | none =>
        rw [normalizedTag_none schema x.a x.value_type_tag hl,
            normalizedTag_none schema x.a y.value_type_tag hl]
        exact h
      | some attr =>
        by_cases hf : attr.fulltext = true
        · have hx' := tagOk_fulltext schema x.a x.value_type_tag attr hl hf hx
          have hy' := tagOk_fulltext schema x.a y.value_type_tag attr hl hf hy
          rw [normalizedTag_fulltext schema x.a x.value_type_tag attr hl hf,
              normalizedTag_fulltext schema x.a y.value_type_tag attr hl hf]
          rcases h with h | ⟨_, h⟩
          · rw [hx', hy'] at h
            exact absurd h (lt_irrefl _)
          · exact Or.inr ⟨rfl, h⟩
        · have hf' : attr.fulltext = false := by
            cases hfv : attr.fulltext
            · rfl
            · exact absurd hfv hf
          rw [normalizedTag_not_fulltext schema x.a x.value_type_tag attr hl hf',
              normalizedTag_not_fulltext schema x.a y.value_type_tag attr hl hf']
          exact h

/-- History analogue of `datomRowLe_implies_normLe`. -/
theorem txRowLe_implies_normLe (schema : Schema) (x y : TransactionRow)
    (hx : tagOk schema x.a x.value_type_tag = true)
    (hy : tagOk schema y.a y.value_type_tag = true)
    (h : txRowLe x y) : txRowNormLe schema x y := by
  unfold txRowLe TransactionRow.sortKey at h
  unfold txRowNormLe TransactionRow.normKey
  rw [Prod.Lex.le_iff] at h ⊢
  simp only [] at h ⊢
  rcases h with h | ⟨ht, h⟩
  · exact Or.inl h
  · refine Or.inr ⟨ht, ?_⟩
    rw [Prod.Lex.le_iff] at h ⊢
    simp only [] at h ⊢
    rcases h with h | ⟨he, h⟩
    · exact Or.inl h
    · refine Or.inr ⟨he, ?_⟩
      rw [Prod.Lex.le_iff] at h ⊢
      simp only [] at h ⊢
      rcases h with h | ⟨ha, h⟩
      · exact Or.inl h
      · refine Or.inr ⟨ha, ?_⟩
        rw [Prod.Lex.le_iff] at h ⊢
        simp only [] at h ⊢
        rw [← ha] at hy ⊢
        cases hl : schema.attribute_map.lookup x.a with
        | none =>
          rw [normalizedTag_none schema x.a x.value_type_tag hl,
              normalizedTag_none schema x.a y.value_type_tag hl]
          exact h
        | some attr =>
          by_cases hf : attr.fulltext = true
          · have hx' := tagOk_fulltext schema x.a x.value_type_tag attr hl hf hx
            have hy' := tagOk_fulltext schema x.a y.value_type_tag attr hl hf hy
            rw [normalizedTag_fulltext schema x.a x.value_type_tag attr hl hf,
                normalizedTag_fulltext schema x.a y.value_type_tag attr hl hf]
            rcases h with h | ⟨_, h⟩
            · rw [hx', hy'] at h
              exact absurd h (lt_irrefl _)
            · exact Or.inr ⟨rfl, h⟩
          · have hf' : attr.fulltext = false := by
              cases hfv : attr.fulltext
              · rfl
              · exact absurd hfv hf
            rw [normalizedTag_not_fulltext schema x.a x.value_type_tag attr hl hf',
                normalizedTag_not_fulltext schema x.a y.value_type_tag attr hl hf']
            exact h

/-- C5.  For every store whose persisted rows are well tagged (datoms of a
fulltext attribute carry the fulltext pointer tag, as the spec says persisted
datoms do), the row sequence the snapshot view `datoms`/`datoms_after`
enumerates is sorted ascending by `(e, a, (value_type_tag, v), tx)` with the
tag of fulltext attributes normalized to the `long` tag, and the row sequence
the history view `transactions_after` enumerates is sorted ascending by
`(tx, e, a, (value_type_tag, v), added)` with the same normalization and with
retractions (`added = false`) before assertions on ties. -/
theorem debug_view_ordering
    (dstore : List DatomRow) (tstore : List TransactionRow) (schema : Schema) (tx : Int)
    (hd : ∀ r ∈ dstore, tagOk schema r.a r.value_type_tag = true)
    (ht : ∀ r ∈ tstore, tagOk schema r.a r.value_type_tag = true) :
    List.Sorted (datomRowNormLe schema) (datomsRows dstore tx) ∧
    List.Sorted (txRowNormLe schema) (transactionsRows tstore tx) := by
  constructor
  · unfold datomsRows
    refine List.Pairwise.imp_of_mem ?_ (List.sorted_insertionSort datomRowLe _)
    intro a b hma hmb hab
    have ha' : a ∈ dstore :=
      List.mem_of_mem_filter ((List.perm_insertionSort datomRowLe _).mem_iff.mp hma)
    have hb' : b ∈ dstore :=
      List.mem_of_mem_filter ((List.perm_insertionSort datomRowLe _).mem_iff.mp hmb)
    exact datomRowLe_implies_normLe schema a b (hd a ha') (hd b hb') hab
  · unfold transactionsRows
    refine List.Pairwise.imp_of_mem ?_ (List.sorted_insertionSort txRowLe _)
    intro a b hma hmb hab
    have ha' : a ∈ tstore :=
      List.mem_of_mem_filter ((List.perm_insertionSort txRowLe _).mem_iff.mp hma)
    have hb' : b ∈ tstore :=
      List.mem_of_mem_filter ((List.perm_insertionSort txRowLe _).mem_iff.mp hmb)
    exact txRowLe_implies_normLe schema a b (ht a ha') (ht b hb') hab

/-- Witness for C5 on a concrete store with a fulltext attribute. -/
theorem debug_view_ordering_witness :
    (∀ r ∈ ([⟨100, 1, .integer 2, 10, 1⟩, ⟨100, 1, .integer 1, 10, 1⟩,
             ⟨99, 2, .integer 5, 5, 1⟩] : List DatomRow),
        tagOk ⟨[(1, ⟨.string, true⟩), (2, ⟨.long, false⟩)], []⟩ r.a r.value_type_tag = true) ∧
    (∀ r ∈ ([⟨100, 1, .integer 2, 10, 1, true⟩, ⟨100, 1, .integer 2, 10, 1, false⟩] :
             List TransactionRow),
        tagOk ⟨[(1, ⟨.string, true⟩), (2, ⟨.long, false⟩)], []⟩ r.a r.value_type_tag = true) ∧
    List.Sorted (datomRowNormLe ⟨[(1, ⟨.string, true⟩), (2, ⟨.long, false⟩)], []⟩)
      (datomsRows [⟨100, 1, .integer 2, 10, 1⟩, ⟨100, 1, .integer 1, 10, 1⟩,
                   ⟨99, 2, .integer 5, 5, 1⟩] 0) ∧
    List.Sorted (txRowNormLe ⟨[(1, ⟨.string, true⟩), (2, ⟨.long, false⟩)], []⟩)
      (transactionsRows [⟨100, 1, .integer 2, 10, 1, true⟩,
                         ⟨100, 1, .integer 2, 10, 1, false⟩] 0) :=
  ⟨by decide, by decide,
   (debug_view_ordering [⟨100, 1, .integer 2, 10, 1⟩, ⟨100, 1, .integer 1, 10, 1⟩,
        ⟨99, 2, .integer 5, 5, 1⟩]
      [⟨100, 1, .integer 2, 10, 1, true⟩, ⟨100, 1, .integer 2, 10, 1, false⟩]
      ⟨[(1, ⟨.string, true⟩), (2, ⟨.long, false⟩)], []⟩ 0
      (by decide) (by decide)).1,
   (debug_view_ordering [⟨100, 1, .integer 2, 10, 1⟩, ⟨100, 1, .integer 1, 10, 1⟩,
        ⟨99, 2, .integer 5, 5, 1⟩]
      [⟨100, 1, .integer 2, 10, 1, true⟩, ⟨100, 1, .integer 2, 10, 1, false⟩]
      ⟨[(1, ⟨.string, true⟩), (2, ⟨.long, false⟩)], []⟩ 0
      (by decide) (by decide)).2⟩

/-- Counterexample to C6 as stated: on a store row of a fulltext attribute
(stored value = rowid `1` at the pointer tag) whose `fulltext_values` table
resolves rowid `1` to the string `"hello"`, the snapshot view emits the
integer `1` — the rowid decoded at the semantic `long` tag — and not the
resolved string: the debug readers never consult `fulltext_values`. -/
theorem fulltext_emitted_value_counterexample :
    datoms_after [⟨200, 100, .integer 1, 10, 1⟩] ⟨[(100, ⟨.string, true⟩)], []⟩ 0
      = .ok [⟨.entid 200, .entid 100, .integer 1, 1, none⟩] ∧
    specResolvedString [(1, "hello")] 1 = some "hello" ∧
    (∀ s : String, (EdnValue.integer 1) ≠ EdnValue.text s) :=
  ⟨rfl, rfl, fun _ h => nomatch h⟩

/-- C6 amended.  For every datom of a fulltext attribute read through the
debug views, the emitted value is the stored value decoded at the semantic
`long` tag — the fulltext string's rowid, emitted as an integer — rather than
a value decoded at the stored fulltext pointer tag, at which the stored
integer does not decode at all. -/
theorem fulltext_semantic_tag_amended (schema : Schema) (r : DatomRow)
    (t : TransactionRow) (attr attr' : Attribute) (n m : Int)
    (hra : schema.attribute_map.lookup r.a = some attr) (hf : attr.fulltext = true)
    (hv : r.v = .integer n) (hni : r.a ≠ DB_TX_INSTANT)
    (hta : schema.attribute_map.lookup t.a = some attr') (hf' : attr'.fulltext = true)
    (hv' : t.v = .integer m) :
    processDatomRow schema r
      = .ok (some ⟨.entid r.e, to_entid schema r.a, .integer n, r.tx, none⟩) ∧
    processTxRow schema t
      = .ok ⟨.entid t.e, to_entid schema t.a, .integer m, t.tx, some t.added⟩ ∧
    fromSQLValuePair (.integer n) fulltextPointerTag = .error .badSQLValuePair := by
  have hreq : schema.require_attribute_for_entid r.a = .ok attr := by
    unfold Schema.require_attribute_for_entid
    rw [hra]
  have hreq' : schema.require_attribute_for_entid t.a = .ok attr' := by
    unfold Schema.require_attribute_for_entid
    rw [hta]
  refine ⟨?_, ?_, ?_⟩
  · unfold processDatomRow
    rw [if_neg hni]
    simp only [hreq, hf, hv, Bool.not_true, Bool.false_eq_true, if_false]
    norm_num [fromSQLValuePair, ValueType.value_type_tag, TypedValue.map_ident,
      TypedValue.to_edn_value]
  · unfold processTxRow
    simp only [hreq', hf', hv', Bool.not_true, Bool.false_eq_true, if_false]
    norm_num [fromSQLValuePair, ValueType.value_type_tag, TypedValue.map_ident,
      TypedValue.to_edn_value]
  · norm_num [fromSQLValuePair, fulltextPointerTag, ValueType.value_type_tag]

/-- Witness for the amended C6 on a concrete fulltext row. -/
theorem fulltext_semantic_tag_amended_witness :
    ((⟨[(100, ⟨.string, true⟩)], []⟩ : Schema).attribute_map.lookup 100
        = some ⟨.string, true⟩) ∧
    processDatomRow ⟨[(100, ⟨.string, true⟩)], []⟩ ⟨200, 100, .integer 1, 10, 1⟩
      = .ok (some ⟨.entid 200, to_entid ⟨[(100, ⟨.string, true⟩)], []⟩ 100,
                   .integer 1, 1, none⟩) ∧
    processTxRow ⟨[(100, ⟨.string, true⟩)], []⟩ ⟨200, 100, .integer 1, 10, 1, false⟩
      = .ok ⟨.entid 200, to_entid ⟨[(100, ⟨.string, true⟩)], []⟩ 100,
             .integer 1, 1, some false⟩ ∧
    fromSQLValuePair (.integer 1) fulltextPointerTag = .error .badSQLValuePair := by
  have h := fulltext_semantic_tag_amended ⟨[(100, ⟨.string, true⟩)], []⟩
    ⟨200, 100, .integer 1, 10, 1⟩ ⟨200, 100, .integer 1, 10, 1, false⟩
    ⟨.string, true⟩ ⟨.string, true⟩ 1 1 rfl rfl rfl (by decide) rfl rfl rfl
  exact ⟨rfl, h.1, h.2.1, h.2.2⟩
